import Mathlib

/-!
Verification of the maximum-power-point controller firmware (src/src/main.cpp).

The development shallowly embeds the firmware's core: the state-to-resistance
mapping and power estimate (calculate_power), the saturating state counters
(count_up, count_down), the hill-climbing decision of the fast tick in loop()
(hill_climb_step, resistor_tick), the MOSFET ladder driver
(switch_transistors), the two cooperative deadlines of loop() (sched_pass),
and the telemetry record built on the slow tick (telemetry_record).

Modelling conventions: C++ double values are embedded as exact rationals;
the C++ int holding the ladder state is embedded as Int; the unsigned long
millisecond counter is embedded as Nat (the claims under study never reach
the 2^32 wrap). Hardware reads/writes are externalized: the sampled voltage
is an input, digitalWrite calls become a list of (pin, level) pairs, and the
Arduino String(...) conversions of the telemetry line are renderer
parameters.
-/

/-- Timeframe (ms) for wind-sensor calculation and SD writing
(CALC_INTERVAL_SENSOR in main.cpp). -/
def CALC_INTERVAL_SENSOR : Nat := 1000

/-- Timeframe (ms) for the hill-climbing step (CALC_INTERVAL_RESISTOR in
main.cpp). -/
def CALC_INTERVAL_RESISTOR : Nat := 100

/-- Voltage divider jumper constant (VOLTAGE_DIVIDER in main.cpp). -/
def VOLTAGE_DIVIDER : ℚ := 1

/-- Resistance loop of calculate_power in main.cpp: starting from
bitset<8> bin_x(state_i), i.e. the low 8 bits of state_i, eight iterations
each test bit 0 of the running value, add 0.02 for a set bit and 2^i for a
clear bit, and shift the running value right by one. The running pair is
(resistance so far, shifted bits). -/
def calculate_resistance (state_i : ℤ) : ℚ :=
  ((List.range 8).foldl
    (fun acc i =>
      (if acc.2 % 2 = 1 then acc.1 + 0.02 else acc.1 + 2 ^ i, acc.2 / 2))
    (0, (state_i % 256).toNat)).1

/-- Embedding of calculate_power in main.cpp: divide the voltage by the
divider constant, compute the ladder resistance from the state bits, and
return voltage squared over resistance. -/
def calculate_power (voltage : ℚ) (state_i : ℤ) : ℚ :=
  (voltage / VOLTAGE_DIVIDER) ^ 2 / calculate_resistance state_i

/-- Formalisation of the specification's resistance_of: the sum over the 8
bit positions of the state of the closed-switch constant 0.02 when the bit
is set and 2^position when it is clear. Stated with Nat.testBit on the
nonnegative value of the state. -/
def resistance_of (s : ℤ) : ℚ :=
  ∑ i in Finset.range 8, if s.toNat.testBit i then 0.02 else 2 ^ i

/-- Second component of the resistance loop: after n iterations the running
bits value is the initial value shifted right n times. -/
lemma calculate_resistance_fold_snd (n : Nat) (x : Nat) (r : ℚ) :
    ((List.range n).foldl
      (fun acc i =>
        (if acc.2 % 2 = 1 then acc.1 + 0.02 else acc.1 + 2 ^ i, acc.2 / 2))
      (r, x)).2 = x / 2 ^ n := by
  induction n generalizing r with
  | zero => simp
  | succ n ih =>
      rw [List.range_succ, List.foldl_append]
      simp only [List.foldl_cons, List.foldl_nil]
      rw [ih, Nat.div_div_eq_div_mul, pow_succ]

/-- First component of the resistance loop: after n iterations the running
resistance is the initial value plus the per-bit contributions of the first
n bits. -/
lemma calculate_resistance_fold_fst (n : Nat) (x : Nat) (r : ℚ) :
    ((List.range n).foldl
      (fun acc i =>
        (if acc.2 % 2 = 1 then acc.1 + 0.02 else acc.1 + 2 ^ i, acc.2 / 2))
      (r, x)).1 =
      r + ∑ i in Finset.range n, if x / 2 ^ i % 2 = 1 then (0.02 : ℚ) else 2 ^ i := by
  induction n generalizing r with
  | zero => simp
  | succ n ih =>
      rw [List.range_succ, List.foldl_append]
      simp only [List.foldl_cons, List.foldl_nil]
      rw [ih, calculate_resistance_fold_snd, Finset.sum_range_succ]
      split_ifs <;> ring

/-- Closed form of the resistance loop: the per-bit sum over the low 8 bits
of the state. -/
lemma calculate_resistance_eq_sum (state_i : ℤ) :
    calculate_resistance state_i =
      ∑ i in Finset.range 8,
        if (state_i % 256).toNat / 2 ^ i % 2 = 1 then (0.02 : ℚ) else 2 ^ i := by
  rw [calculate_resistance, calculate_resistance_fold_fst, zero_add]

/-- The resistance loop of the source agrees with the specification's
resistance_of on every in-range state. -/
lemma calculate_resistance_eq_resistance_of (s : ℤ) (h0 : 0 ≤ s) (h255 : s ≤ 255) :
    calculate_resistance s = resistance_of s := by
  rw [calculate_resistance_eq_sum, resistance_of]
  have hmod : s % 256 = s := by omega
  rw [hmod]
  simp only [Nat.testBit_to_div_mod, decide_eq_true_eq]

/-- The ladder resistance of every state (in range or not) is strictly
positive: each of the eight per-bit contributions is positive. -/
lemma calculate_resistance_pos (s : ℤ) : 0 < calculate_resistance s := by
  rw [calculate_resistance_eq_sum]
  refine Finset.sum_pos (fun i _ => ?_) ⟨0, by norm_num⟩
  split_ifs <;> positivity

/-- Value of the resistance loop at state 255: all eight bits set, so eight
closed-switch contributions of 0.02 each. -/
lemma calculate_resistance_255 : calculate_resistance 255 = 8 * 0.02 := by
  rw [calculate_resistance_eq_sum]
  rw [show ((255 : ℤ) % 256).toNat = 255 from rfl]
  norm_num [Finset.sum_range_succ]

/-- Value of the resistance loop at state 0: all eight bits clear, so the
binary-weighted sum 1 + 2 + 4 + ... + 128. -/
lemma calculate_resistance_0 : calculate_resistance 0 = 255 := by
  rw [calculate_resistance_eq_sum]
  rw [show ((0 : ℤ) % 256).toNat = 0 from rfl]
  norm_num [Finset.sum_range_succ]

/-- Embedding of count_up in main.cpp: increase the state by one unless it
is already 255. -/
def count_up (state_i : ℤ) : ℤ :=
  if state_i = 255 then 255 else state_i + 1

/-- Embedding of count_down in main.cpp: decrease the state by one unless it
is already 0. -/
def count_down (state_i : ℤ) : ℤ :=
  if state_i = 0 then 0 else state_i - 1

/-- Mutable controller state of main.cpp: the global int state, the global
bool rising_res_cycle, and the retained double old_power. -/
structure ControllerState where
  state : ℤ
  rising_res_cycle : Bool
  old_power : ℚ
deriving Repr, DecidableEq

/-- Hill-climbing decision of the fast tick in loop() (lines 132 to 150 of
main.cpp), given the freshly computed new_power: on a strict increase move
the state with the current phase (down when rising, up otherwise); on a
strict decrease move the state against the current phase and flip the
phase; otherwise leave state and phase unchanged. In every case old_power
is then overwritten with new_power. -/
def hill_climb_step (cs : ControllerState) (new_power : ℚ) : ControllerState :=
  let cs1 :=
    if new_power > cs.old_power then
      { cs with
          state := if cs.rising_res_cycle then count_down cs.state else count_up cs.state }
    else if new_power < cs.old_power then
      { cs with
          state := if cs.rising_res_cycle then count_up cs.state else count_down cs.state,
          rising_res_cycle := !cs.rising_res_cycle }
    else
      cs
  { cs1 with old_power := new_power }

/-- One full fast tick of loop(): compute the power of the sampled voltage
at the current state, then take the hill-climbing decision. -/
def resistor_tick (cs : ControllerState) (volt : ℚ) : ControllerState :=
  hill_climb_step cs (calculate_power volt cs.state)

/-- Controller state right after setup() in main.cpp: state 255, phase
rising, and old_power 0 (a zero-initialized C++ global that setup() never
writes). -/
def initial_controller : ControllerState :=
  { state := 255, rising_res_cycle := true, old_power := 0 }

/-- Hill-climb decision on a strict power increase: move with the phase,
keep the phase. -/
lemma hill_climb_step_increase (cs : ControllerState) (p : ℚ)
    (h : cs.old_power < p) :
    hill_climb_step cs p =
      { state := if cs.rising_res_cycle then count_down cs.state else count_up cs.state,
        rising_res_cycle := cs.rising_res_cycle,
        old_power := p } := by
  simp [hill_climb_step, h]

/-- Hill-climb decision on a strict power decrease: move against the phase,
flip the phase. -/
lemma hill_climb_step_decrease (cs : ControllerState) (p : ℚ)
    (h : p < cs.old_power) :
    hill_climb_step cs p =
      { state := if cs.rising_res_cycle then count_up cs.state else count_down cs.state,
        rising_res_cycle := !cs.rising_res_cycle,
        old_power := p } := by
  simp [hill_climb_step, h, not_lt.2 h.le]

/-- Hill-climb decision on equal powers: neither branch fires; only
old_power is overwritten. -/
lemma hill_climb_step_equal (cs : ControllerState) (p : ℚ)
    (h : p = cs.old_power) :
    hill_climb_step cs p =
      { state := cs.state,
        rising_res_cycle := cs.rising_res_cycle,
        old_power := p } := by
  simp [hill_climb_step, h]

/-- The retained power is overwritten with the fresh power on every tick,
whatever the comparison said. -/
lemma hill_climb_step_old_power (cs : ControllerState) (p : ℚ) :
    (hill_climb_step cs p).old_power = p := rfl

/-- With the divider jumper constant 1, the power estimate is voltage
squared over the ladder resistance. -/
lemma calculate_power_eq (v : ℚ) (s : ℤ) :
    calculate_power v s = v ^ 2 / calculate_resistance s := by
  rw [calculate_power, VOLTAGE_DIVIDER, div_one]

/-- A zero voltage sample yields a zero power estimate. -/
lemma calculate_power_zero (s : ℤ) : calculate_power 0 s = 0 := by
  rw [calculate_power_eq]
  simp

/-- A nonzero voltage sample yields a strictly positive power estimate. -/
lemma calculate_power_pos (v : ℚ) (s : ℤ) (hv : v ≠ 0) :
    0 < calculate_power v s := by
  rw [calculate_power_eq]
  exact div_pos
    (lt_of_le_of_ne (sq_nonneg v) (Ne.symm (pow_ne_zero 2 hv)))
    (calculate_resistance_pos s)

/-- A saturating increment maps the range 0 to 255 into itself. -/
lemma count_up_bounds (s : ℤ) (h0 : 0 ≤ s) (h255 : s ≤ 255) :
    0 ≤ count_up s ∧ count_up s ≤ 255 := by
  rw [count_up]
  split_ifs <;> omega

/-- A saturating decrement maps the range 0 to 255 into itself. -/
lemma count_down_bounds (s : ℤ) (h0 : 0 ≤ s) (h255 : s ≤ 255) :
    0 ≤ count_down s ∧ count_down s ≤ 255 := by
  rw [count_down]
  split_ifs <;> omega

/-- A saturating decrement of a positive state subtracts exactly one. -/
lemma count_down_of_pos (s : ℤ) (h : 0 < s) : count_down s = s - 1 := by
  rw [count_down, if_neg (by omega)]

/-- Whatever the power comparison said, the new state is the old state or a
saturating step away from it. -/
lemma hill_climb_step_state_cases (cs : ControllerState) (p : ℚ) :
    (hill_climb_step cs p).state = cs.state ∨
    (hill_climb_step cs p).state = count_up cs.state ∨
    (hill_climb_step cs p).state = count_down cs.state := by
  rw [hill_climb_step]
  rcases Bool.eq_false_or_eq_true cs.rising_res_cycle with hb | hb <;>
    split_ifs <;> simp [hb]

/-- One tick keeps the ladder state inside the range 0 to 255. -/
lemma resistor_tick_state_bounds (cs : ControllerState) (volt : ℚ)
    (h0 : 0 ≤ cs.state) (h255 : cs.state ≤ 255) :
    0 ≤ (resistor_tick cs volt).state ∧ (resistor_tick cs volt).state ≤ 255 := by
  rw [resistor_tick]
  rcases hill_climb_step_state_cases cs (calculate_power volt cs.state) with h | h | h <;>
    rw [h]
  · exact ⟨h0, h255⟩
  · exact count_up_bounds cs.state h0 h255
  · exact count_down_bounds cs.state h0 h255

/-- Successive controller states produced by running the fast tick on a
list of sampled voltages, in order. -/
def run_states : ControllerState → List ℚ → List ControllerState
  | _, [] => []
  | cs, v :: vs => resistor_tick cs v :: run_states (resistor_tick cs v) vs

/-- The power computed at each tick of the run is strictly above the power
retained from the previous tick. -/
def all_increasing : ControllerState → List ℚ → Prop
  | _, [] => True
  | cs, v :: vs =>
      cs.old_power < calculate_power v cs.state ∧ all_increasing (resistor_tick cs v) vs

/-- A run performs one tick per sampled voltage. -/
lemma run_states_length (volts : List ℚ) (cs : ControllerState) :
    (run_states cs volts).length = volts.length := by
  induction volts generalizing cs with
  | nil => rfl
  | cons v vs ih => simp [run_states, ih]

/-- Every state of a run from a nonnegative state stays nonnegative. -/
lemma run_states_nonneg (volts : List ℚ) (cs : ControllerState)
    (h : 0 ≤ cs.state) :
    ∀ x ∈ run_states cs volts, 0 ≤ x.state := by
  induction volts generalizing cs with
  | nil => simp [run_states]
  | cons v vs ih =>
      intro x hx
      rw [run_states, List.mem_cons] at hx
      have hnext : 0 ≤ (resistor_tick cs v).state := by
        rw [resistor_tick]
        rcases hill_climb_step_state_cases cs (calculate_power v cs.state) with h1 | h1 | h1 <;>
          rw [h1]
        · exact h
        · rw [count_up]; split_ifs <;> omega
        · rw [count_down]; split_ifs <;> omega
      rcases hx with rfl | hx
      · exact hnext
      · exact ih _ hnext x hx

/-- Core descent lemma: from a rising phase with at least as much state
headroom as there are ticks, strictly increasing powers keep the phase
rising and decrement the state by exactly one on every tick. -/
lemma run_states_of_increasing (volts : List ℚ) (cs : ControllerState)
    (hrise : cs.rising_res_cycle = true)
    (hinc : all_increasing cs volts)
    (hlen : (volts.length : ℤ) ≤ cs.state) :
    (∀ x ∈ run_states cs volts, x.rising_res_cycle = true) ∧
    List.Chain (fun a b => b.state < a.state) cs (run_states cs volts) := by
  induction volts generalizing cs with
  | nil => simp [run_states]
  | cons v vs ih =>
      rw [all_increasing] at hinc
      obtain ⟨h1, h2⟩ := hinc
      have hpos : 0 < cs.state := by
        rw [List.length_cons] at hlen
        push_cast at hlen
        omega
      have htick : resistor_tick cs v =
          { state := cs.state - 1, rising_res_cycle := true,
            old_power := calculate_power v cs.state } := by
        rw [resistor_tick, hill_climb_step_increase cs _ h1, hrise,
          if_pos rfl, count_down_of_pos cs.state hpos]
      have hlen2 : (vs.length : ℤ) ≤ (resistor_tick cs v).state := by
        rw [htick]
        show (vs.length : ℤ) ≤ cs.state - 1
        rw [List.length_cons] at hlen
        push_cast at hlen
        omega
      have hrise2 : (resistor_tick cs v).rising_res_cycle = true := by rw [htick]
      obtain ⟨ihmem, ihchain⟩ := ih (resistor_tick cs v) hrise2 h2 hlen2
      constructor
      · intro x hx
        rw [run_states, List.mem_cons] at hx
        rcases hx with rfl | hx
        · exact hrise2
        · exact ihmem x hx
      · rw [run_states, List.chain_cons]
        refine ⟨?_, ihchain⟩
        rw [htick]
        exact sub_lt_self cs.state one_pos

/-- Along a chain of strictly decreasing integer states, the state at
position i has dropped by at least i + 1 below the head. -/
lemma chain_state_bound (l : List ControllerState) (c : ControllerState)
    (h : List.Chain (fun a b => b.state < a.state) c l) :
    ∀ i (hi : i < l.length), (l.get ⟨i, hi⟩).state ≤ c.state - (i + 1) := by
  induction l generalizing c with
  | nil => intro i hi; simp at hi
  | cons a l ih =>
      rw [List.chain_cons] at h
      intro i hi
      cases i with
      | zero =>
          have := h.1
          simp only [List.get]
          push_cast
          omega
      | succ j =>
          have hj : j < l.length := by
            rw [List.length_cons] at hi
            omega
          have hb := ih a h.2 j hj
          have := h.1
          simp only [List.get] at hb ⊢
          push_cast at hb ⊢
          omega

/-- Sampled voltage that forces the power estimate above the retained
power: ladder resistance times (retained power plus one), plus one. -/
def greedy_volt (cs : ControllerState) : ℚ :=
  calculate_resistance cs.state * (cs.old_power + 1) + 1

/-- The greedy voltage indeed makes the tick observe a strict power
increase whenever the retained power is nonnegative. -/
lemma greedy_volt_increase (cs : ControllerState) (h : 0 ≤ cs.old_power) :
    cs.old_power < calculate_power (greedy_volt cs) cs.state := by
  have hRpos : 0 < calculate_resistance cs.state := calculate_resistance_pos cs.state
  have hv1 : 1 ≤ greedy_volt cs := by
    rw [greedy_volt]
    nlinarith
  have hgap : greedy_volt cs - cs.old_power * calculate_resistance cs.state =
      calculate_resistance cs.state + 1 := by
    rw [greedy_volt]
    ring
  have hsq : greedy_volt cs ≤ greedy_volt cs ^ 2 := by nlinarith
  rw [calculate_power_eq, lt_div_iff₀ hRpos]
  nlinarith

/-- Voltage sequence that keeps forcing power increases, one greedy sample
per tick, following the states the controller actually reaches. -/
def greedy_volts : ControllerState → Nat → List ℚ
  | _, 0 => []
  | cs, n + 1 => greedy_volt cs :: greedy_volts (resistor_tick cs (greedy_volt cs)) n

/-- The greedy sequence provides one voltage per requested tick. -/
lemma greedy_volts_length (n : Nat) (cs : ControllerState) :
    (greedy_volts cs n).length = n := by
  induction n generalizing cs with
  | zero => rfl
  | succ n ih => simp [greedy_volts, ih]

/-- The greedy sequence makes every tick observe a strict power increase. -/
lemma greedy_volts_increasing (n : Nat) (cs : ControllerState)
    (h : 0 ≤ cs.old_power) :
    all_increasing cs (greedy_volts cs n) := by
  induction n generalizing cs with
  | zero => rw [greedy_volts, all_increasing]; trivial
  | succ n ih =>
      rw [greedy_volts, all_increasing]
      refine ⟨greedy_volt_increase cs h, ih _ ?_⟩
      rw [resistor_tick, hill_climb_step_old_power]
      exact le_of_lt (lt_of_le_of_lt h (greedy_volt_increase cs h))

/-- Concrete 256-tick voltage sequence used to exercise the descent from
state 255 all the way into the saturating boundary at 0. -/
def ce_volts : List ℚ := greedy_volts initial_controller 256

/-- Scheduler state of main.cpp: the two deadline globals nextCalcResistance
and nextCalcSensor, in milliseconds. -/
structure SchedState where
  nextCalcResistance : Nat
  nextCalcSensor : Nat
deriving Repr, DecidableEq

/-- One pass of loop() as seen by the scheduler (lines 124 to 126 and 153
to 155 of main.cpp): each deadline fires when the current millisecond
counter strictly exceeds it, and a firing deadline is reset to the current
counter plus its own interval. Returns the updated deadlines together with
the fired flags (fast tick, slow tick). -/
def sched_pass (sch : SchedState) (now : Nat) : SchedState × Bool × Bool :=
  let fastFires : Bool := decide (sch.nextCalcResistance < now)
  let slowFires : Bool := decide (sch.nextCalcSensor < now)
  (⟨if fastFires then now + CALC_INTERVAL_RESISTOR else sch.nextCalcResistance,
    if slowFires then now + CALC_INTERVAL_SENSOR else sch.nextCalcSensor⟩,
   fastFires, slowFires)

/-- Scheduler log over a list of loop-pass timestamps: for each pass the
timestamp together with the fired flags of the two ticks. -/
def run_sched : SchedState → List Nat → List (Nat × Bool × Bool)
  | _, [] => []
  | sch, now :: rest => (now, (sched_pass sch now).2) :: run_sched (sched_pass sch now).1 rest

/-- Deadlines left after a list of loop passes. -/
def sched_final : SchedState → List Nat → SchedState
  | sch, [] => sch
  | sch, now :: rest => sched_final (sched_pass sch now).1 rest

/-- Timestamps of the passes on which the fast (hill-climb) tick fired. -/
def fast_fire_times (sch : SchedState) (nows : List Nat) : List Nat :=
  (run_sched sch nows).filterMap (fun e => if e.2.1 then some e.1 else none)

/-- Timestamps of the passes on which the slow (telemetry) tick fired. -/
def slow_fire_times (sch : SchedState) (nows : List Nat) : List Nat :=
  (run_sched sch nows).filterMap (fun e => if e.2.2 then some e.1 else none)

/-- Deadline state right after setup() in main.cpp: setup() computes only
nextCalcSensor as millis() plus the sensor interval (line 105); the global
nextCalcResistance is never assigned and keeps its zero initialization. -/
def setup_sched (now : Nat) : SchedState :=
  { nextCalcResistance := 0, nextCalcSensor := now + CALC_INTERVAL_SENSOR }

/-- Pin numbers of the eight MOSFET switch lines, in bit order
(MOSFETPINS in main.cpp, built from the MOSFET1 to MOSFET8 defines). -/
def MOSFETPINS : List Nat := [0, 1, 2, 3, 7, 6, 8, 9]

/-- Embedding of switch_transistors in main.cpp: for each of the 8 bit
positions of the state (least significant first), one digitalWrite of the
corresponding MOSFET pin, HIGH when the bit is set and LOW when it is
clear. The result lists the (pin, level) writes in loop order. -/
def switch_transistors (state_i : ℤ) : List (Nat × Bool) :=
  (List.range 8).map (fun i => (MOSFETPINS.getD i 0, ((state_i % 256).toNat).testBit i))

/-- Join a list of fields with single commas, the specification's reading
of a comma-separated record. -/
def commaJoin : List String → String
  | [] => ""
  | [f] => f
  | f :: fs => f ++ "," ++ commaJoin fs

/-- Whether a rendered string contains a newline character. -/
def has_newline (f : String) : Bool := decide ('\n' ∈ f.data)

/-- Telemetry line built on the slow tick of loop() (lines 164 to 167 of
main.cpp). The Arduino String(...) conversions are external library
collaborators and are passed in as renderers: fmtLong for long values,
fmtInt for int values, fmtDouble for double values, fmtByte for the RTC
byte fields. The concatenation order and separators mirror the source. -/
def telemetry_record (fmtLong fmtInt : ℤ → String) (fmtDouble : ℚ → String)
    (fmtByte : Nat → String) (windSpeed windGust windDirection : ℤ)
    (new_power : ℚ) (state_i : ℤ) (voltage : ℚ)
    (month dayOfMonth hours minutes seconds : Nat) : String :=
  fmtLong windSpeed ++ "," ++ fmtInt windGust ++ "," ++ fmtLong windDirection ++ "," ++
    fmtDouble new_power ++ "," ++ fmtInt state_i ++ "," ++ fmtDouble voltage ++ "," ++
    fmtByte month ++ "/" ++ fmtByte dayOfMonth ++ "," ++ fmtByte hours ++ ":" ++
    fmtByte minutes ++ ":" ++ fmtByte seconds

/-- Field list of the telemetry line, in the order the source emits them:
wind speed, wind gust, wind direction, retained power estimate, ladder
state, sampled voltage, month/day, hours:minutes:seconds. -/
def telemetry_fields (fmtLong fmtInt : ℤ → String) (fmtDouble : ℚ → String)
    (fmtByte : Nat → String) (windSpeed windGust windDirection : ℤ)
    (new_power : ℚ) (state_i : ℤ) (voltage : ℚ)
    (month dayOfMonth hours minutes seconds : Nat) : List String :=
  [fmtLong windSpeed, fmtInt windGust, fmtLong windDirection,
   fmtDouble new_power, fmtInt state_i, fmtDouble voltage,
   fmtByte month ++ "/" ++ fmtByte dayOfMonth,
   fmtByte hours ++ ":" ++ fmtByte minutes ++ ":" ++ fmtByte seconds]

/-- C1: On every controller tick the hill-climb step behaves exactly as
specified: on a strict power increase the state is decremented when the
phase flag is rising and incremented when it is falling, with the flag
unchanged; on a strict decrease the state is incremented when rising and
decremented when falling, and the flag is flipped; on equal powers neither
the state nor the flag changes; and in every case the retained old power is
overwritten with the new power. -/
theorem hill_climb_step_matches_spec (cs : ControllerState) (p : ℚ) :
    (cs.old_power < p →
      (hill_climb_step cs p).state =
        (if cs.rising_res_cycle then count_down cs.state else count_up cs.state) ∧
      (hill_climb_step cs p).rising_res_cycle = cs.rising_res_cycle) ∧
    (p < cs.old_power →
      (hill_climb_step cs p).state =
        (if cs.rising_res_cycle then count_up cs.state else count_down cs.state) ∧
      (hill_climb_step cs p).rising_res_cycle = !cs.rising_res_cycle) ∧
    (p = cs.old_power →
      (hill_climb_step cs p).state = cs.state ∧
      (hill_climb_step cs p).rising_res_cycle = cs.rising_res_cycle) ∧
    (hill_climb_step cs p).old_power = p := by
  refine ⟨fun h => ?_, fun h => ?_, fun h => ?_, hill_climb_step_old_power cs p⟩
  · rw [hill_climb_step_increase cs p h]
    exact ⟨rfl, rfl⟩
  · rw [hill_climb_step_decrease cs p h]
    exact ⟨rfl, rfl⟩
  · rw [hill_climb_step_equal cs p h]
    exact ⟨rfl, rfl⟩

/-- Witness for C1: a concrete increasing tick from state 200 in the rising
phase steps down to 199, keeps the flag, and overwrites the old power. -/
theorem hill_climb_step_matches_spec_witness :
    (hill_climb_step ⟨200, true, 1⟩ 2).state = count_down 200 ∧
    (hill_climb_step ⟨200, true, 1⟩ 2).rising_res_cycle = true ∧
    (hill_climb_step ⟨200, true, 1⟩ 2).old_power = 2 := by
  have h := hill_climb_step_matches_spec ⟨200, true, 1⟩ 2
  have h1 := h.1 (by norm_num)
  exact ⟨by simpa using h1.1, h1.2, h.2.2.2⟩

/-- C2: For every voltage and every state in the range 0 to 255, the power
estimate of the source equals voltage squared divided by the
specification's resistance_of, and resistance_of takes the claimed values
at the two extreme states: eight times the closed-switch constant at 255
and the full binary-weighted sum 255 at 0. -/
theorem calculate_power_matches_spec (v : ℚ) (s : ℤ) (h0 : 0 ≤ s) (h255 : s ≤ 255) :
    calculate_power v s = v ^ 2 / resistance_of s ∧
    resistance_of 255 = 8 * 0.02 ∧
    resistance_of 0 = (255 : ℚ) := by
  refine ⟨?_, ?_, ?_⟩
  · rw [calculate_power_eq, calculate_resistance_eq_resistance_of s h0 h255]
  · rw [← calculate_resistance_eq_resistance_of 255 (by norm_num) (by norm_num),
      calculate_resistance_255]
  · rw [← calculate_resistance_eq_resistance_of 0 (by norm_num) (by norm_num),
      calculate_resistance_0]

/-- Witness for C2: the spec equalities instantiated at voltage 1 and
state 177. -/
theorem calculate_power_matches_spec_witness :
    calculate_power 1 177 = 1 ^ 2 / resistance_of 177 ∧
    resistance_of 255 = 8 * 0.02 ∧
    resistance_of 0 = (255 : ℚ) :=
  calculate_power_matches_spec 1 177 (by norm_num) (by norm_num)

/-- C3: For every state in the range 0 to 255 the ladder resistance is
strictly positive, so the division of the power computation never divides
by zero. -/
theorem resistance_never_zero (s : ℤ) (h0 : 0 ≤ s) (h255 : s ≤ 255) :
    0 < resistance_of s ∧ calculate_resistance s ≠ 0 := by
  have h := calculate_resistance_pos s
  exact ⟨by rw [← calculate_resistance_eq_resistance_of s h0 h255]; exact h, ne_of_gt h⟩

/-- Witness for C3: positivity of the resistance at state 0. -/
theorem resistance_never_zero_witness :
    0 < resistance_of 0 ∧ calculate_resistance 0 ≠ 0 :=
  resistance_never_zero 0 (by norm_num) (by norm_num)

/-- C4: The ladder state starts at 255, both counters saturate at the
boundaries, both counters map the range 0 to 255 into itself, and every
controller tick preserves the range invariant. -/
theorem ladder_state_clamped :
    initial_controller.state = 255 ∧
    count_up 255 = 255 ∧
    count_down 0 = 0 ∧
    (∀ s : ℤ, 0 ≤ s → s ≤ 255 →
      (0 ≤ count_up s ∧ count_up s ≤ 255) ∧
      (0 ≤ count_down s ∧ count_down s ≤ 255)) ∧
    (∀ (cs : ControllerState) (volt : ℚ), 0 ≤ cs.state → cs.state ≤ 255 →
      0 ≤ (resistor_tick cs volt).state ∧ (resistor_tick cs volt).state ≤ 255) := by
  refine ⟨rfl, by decide, by decide,
    fun s h0 h255 => ⟨count_up_bounds s h0 h255, count_down_bounds s h0 h255⟩,
    fun cs volt h0 h255 => resistor_tick_state_bounds cs volt h0 h255⟩

/-- Witness for C4: the range invariant instantiated at state 100 and at a
concrete tick. -/
theorem ladder_state_clamped_witness :
    (0 ≤ count_up 100 ∧ count_up 100 ≤ 255) ∧
    (0 ≤ (resistor_tick ⟨100, true, 0⟩ 1).state ∧
      (resistor_tick ⟨100, true, 0⟩ 1).state ≤ 255) := by
  have h := ladder_state_clamped
  exact ⟨(h.2.2.2.1 100 (by decide) (by decide)).1,
    h.2.2.2.2 ⟨100, true, 0⟩ 1 (by decide) (by decide)⟩

/-- C5: Each deadline fires exactly when the millisecond counter strictly
exceeds it and is then reset to now plus its own interval (not deadline
plus interval); and in the concrete scenario where the fast and slow
deadlines stand at 100 and 1000 at the start (one interval after time 0)
and the loop passes at 0, 50, 150 and 1050, exactly the fast ticks at 150
and 1050 fire and exactly the slow tick at 1050 fires, leaving deadlines
1150 and 2050 rescheduled relative to the firing times. -/
theorem scheduler_reschedules_from_now (sch : SchedState) (now : Nat) :
    ((sched_pass sch now).2.1 = decide (sch.nextCalcResistance < now)) ∧
    ((sched_pass sch now).2.2 = decide (sch.nextCalcSensor < now)) ∧
    ((sched_pass sch now).1.nextCalcResistance =
      if sch.nextCalcResistance < now then now + CALC_INTERVAL_RESISTOR
      else sch.nextCalcResistance) ∧
    ((sched_pass sch now).1.nextCalcSensor =
      if sch.nextCalcSensor < now then now + CALC_INTERVAL_SENSOR
      else sch.nextCalcSensor) ∧
    fast_fire_times ⟨100, 1000⟩ [0, 50, 150, 1050] = [150, 1050] ∧
    slow_fire_times ⟨100, 1000⟩ [0, 50, 150, 1050] = [1050] ∧
    sched_final ⟨100, 1000⟩ [0, 50, 150, 1050] = ⟨1150, 2050⟩ := by
  refine ⟨rfl, rfl, ?_, ?_, by decide, by decide, by decide⟩
  · simp [sched_pass]
  · simp [sched_pass]

/-- Counterexample for C6: at a first sampled voltage of exactly 0 the
computed power 0 equals the retained initial power 0, so neither comparison
fires: the first tick leaves the state at 255 instead of decrementing it to
254, refuting the claim for the input voltage 0. -/
theorem first_tick_zero_voltage_no_step :
    (resistor_tick initial_controller 0).state ≠ 254 ∧
    resistor_tick initial_controller 0 = initial_controller := by
  have h : resistor_tick initial_controller 0 = initial_controller := by
    rw [resistor_tick, calculate_power_zero, hill_climb_step_equal initial_controller 0 rfl]
    rfl
  exact ⟨by rw [h]; decide, h⟩

/-- C6 (amended): from the initial controller state, every nonzero first
sampled voltage makes the first tick observe a strict power increase,
decrement the state to 254, and keep the phase flag rising. -/
theorem first_tick_decrements (v : ℚ) (hv : v ≠ 0) :
    initial_controller.old_power < calculate_power v initial_controller.state ∧
    (resistor_tick initial_controller v).state = 254 ∧
    (resistor_tick initial_controller v).rising_res_cycle = true := by
  have hinc : initial_controller.old_power < calculate_power v initial_controller.state :=
    calculate_power_pos v 255 hv
  refine ⟨hinc, ?_, ?_⟩
  · rw [resistor_tick, hill_climb_step_increase _ _ hinc]
    norm_num [initial_controller, count_down]
  · rw [resistor_tick, hill_climb_step_increase _ _ hinc]
    rfl

/-- Witness for C6 (amended): the first tick at voltage 1. -/
theorem first_tick_decrements_witness :
    initial_controller.old_power < calculate_power 1 initial_controller.state ∧
    (resistor_tick initial_controller 1).state = 254 ∧
    (resistor_tick initial_controller 1).rising_res_cycle = true :=
  first_tick_decrements 1 (by norm_num)

/-- C8: Applying a state writes all 8 switch lines on every call, in bit
order least significant first, driving line i to the active level exactly
when bit i of the state is set; in particular state 177 drives switches
0, 4, 5 and 7 (pins 0, 7, 6 and 9) active and the others inactive. -/
theorem switch_transistors_full_reassert (s : ℤ) (h0 : 0 ≤ s) (h255 : s ≤ 255) :
    (switch_transistors s).length = 8 ∧
    (∀ i, i < 8 →
      (switch_transistors s).getD i (0, false) = (MOSFETPINS.getD i 0, s.toNat.testBit i)) ∧
    switch_transistors 177 =
      [(0, true), (1, false), (2, false), (3, false),
       (7, true), (6, true), (8, false), (9, true)] := by
  refine ⟨by simp [switch_transistors], ?_, by decide⟩
  intro i hi
  have hs : s % 256 = s := by omega
  rw [switch_transistors, hs]
  interval_cases i <;> rfl

/-- Witness for C8: the write list of state 177 re-asserts all eight lines
with the claimed levels. -/
theorem switch_transistors_full_reassert_witness :
    (switch_transistors 177).length = 8 ∧
    (switch_transistors 177).getD 4 (0, false) = (MOSFETPINS.getD 4 0, (177 : ℤ).toNat.testBit 4) := by
  have h := switch_transistors_full_reassert 177 (by decide) (by decide)
  exact ⟨h.1, h.2.1 4 (by decide)⟩

/-- C10: setup() seeds only the telemetry deadline (to millis() plus the
slow interval); the controller deadline keeps its zero-initialized value,
so the fast tick fires on the very first loop pass whose counter exceeds 0
while the slow tick waits out a full slow interval. -/
theorem controller_deadline_not_seeded (m t : Nat) :
    (setup_sched m).nextCalcResistance = 0 ∧
    (setup_sched m).nextCalcSensor = m + CALC_INTERVAL_SENSOR ∧
    (0 < t → (sched_pass (setup_sched m) t).2.1 = true) ∧
    (t ≤ m + CALC_INTERVAL_SENSOR → (sched_pass (setup_sched m) t).2.2 = false) := by
  refine ⟨rfl, rfl, fun h => ?_, fun h => ?_⟩
  · simp [sched_pass, setup_sched, h]
  · simp only [sched_pass, setup_sched]
    simpa using by omega

/-- Witness for C10: after a setup at time 0, the pass at time 1 fires the
fast tick and not the slow tick. -/
theorem controller_deadline_not_seeded_witness :
    (sched_pass (setup_sched 0) 1).2.1 = true ∧
    (sched_pass (setup_sched 0) 1).2.2 = false := by
  have h := controller_deadline_not_seeded 0 1
  exact ⟨h.2.2.1 (by decide), h.2.2.2 (by decide)⟩

/-- Newline detection distributes over string concatenation. -/
lemma has_newline_append (a b : String) :
    has_newline (a ++ b) = (has_newline a || has_newline b) := by
  rw [has_newline, has_newline, has_newline, String.data_append]
  by_cases ha : '\n' ∈ a.data <;> by_cases hb : '\n' ∈ b.data <;>
    simp [ha, hb, List.mem_append]

/-- A comma-join of newline-free fields is newline-free. -/
lemma has_newline_commaJoin (fs : List String)
    (h : fs.all (fun f => !has_newline f) = true) :
    has_newline (commaJoin fs) = false := by
  induction fs with
  | nil => decide
  | cons f gs ih =>
      cases gs with
      | nil =>
          simp only [List.all_cons, List.all_nil, Bool.and_true] at h
          simpa [commaJoin] using h
      | cons g gs2 =>
          rw [List.all_cons, Bool.and_eq_true] at h
          show has_newline (f ++ "," ++ commaJoin (g :: gs2)) = false
          rw [has_newline_append, has_newline_append]
          have h1 : has_newline f = false := by simpa using h.1
          rw [h1, ih h.2]
          decide

/-- C9: The telemetry line is the comma-join of exactly the fields wind
speed, wind gust, wind direction, retained power estimate, ladder state,
sampled voltage, month/day and hours:minutes:seconds, in that order; and
whenever the rendered fields are newline-free the record is a single line. -/
theorem telemetry_record_is_csv_line (fmtLong fmtInt : ℤ → String)
    (fmtDouble : ℚ → String) (fmtByte : Nat → String)
    (windSpeed windGust windDirection : ℤ) (new_power : ℚ) (state_i : ℤ)
    (voltage : ℚ) (month dayOfMonth hours minutes seconds : Nat) :
    telemetry_record fmtLong fmtInt fmtDouble fmtByte windSpeed windGust windDirection
        new_power state_i voltage month dayOfMonth hours minutes seconds =
      commaJoin (telemetry_fields fmtLong fmtInt fmtDouble fmtByte windSpeed windGust
        windDirection new_power state_i voltage month dayOfMonth hours minutes seconds) ∧
    ((telemetry_fields fmtLong fmtInt fmtDouble fmtByte windSpeed windGust windDirection
        new_power state_i voltage month dayOfMonth hours minutes seconds).all
          (fun f => !has_newline f) = true →
      has_newline (telemetry_record fmtLong fmtInt fmtDouble fmtByte windSpeed windGust
        windDirection new_power state_i voltage month dayOfMonth hours minutes seconds)
        = false) := by
  have h1 : telemetry_record fmtLong fmtInt fmtDouble fmtByte windSpeed windGust
      windDirection new_power state_i voltage month dayOfMonth hours minutes seconds =
      commaJoin (telemetry_fields fmtLong fmtInt fmtDouble fmtByte windSpeed windGust
        windDirection new_power state_i voltage month dayOfMonth hours minutes seconds) := by
    simp [telemetry_record, telemetry_fields, commaJoin, String.append_assoc]
  exact ⟨h1, fun h => by rw [h1]; exact has_newline_commaJoin _ h⟩

/-- Witness for C9: a fully concrete telemetry line with constant
renderers is the comma-join of its eight fields and contains no newline. -/
theorem telemetry_record_is_csv_line_witness :
    telemetry_record (fun _ => "12") (fun _ => "7") (fun _ => "0.02") (fun _ => "5")
        3 2 90 17 200 1 3 5 0 0 0 =
      commaJoin (telemetry_fields (fun _ => "12") (fun _ => "7") (fun _ => "0.02")
        (fun _ => "5") 3 2 90 17 200 1 3 5 0 0 0) ∧
    has_newline (telemetry_record (fun _ => "12") (fun _ => "7") (fun _ => "0.02")
        (fun _ => "5") 3 2 90 17 200 1 3 5 0 0 0) = false := by
  have h := telemetry_record_is_csv_line (fun _ => "12") (fun _ => "7") (fun _ => "0.02")
    (fun _ => "5") 3 2 90 17 200 1 3 5 0 0 0
  exact ⟨h.1, h.2 (by decide)⟩

/-- C7 (amended): if the controller starts at state 255 in the rising phase
and the computed power strictly increases on each of at most 255
consecutive ticks, the state strictly decreases on every one of those ticks
and the phase flag never flips. -/
theorem increasing_power_descends (volts : List ℚ) (cs : ControllerState)
    (hstate : cs.state = 255) (hrise : cs.rising_res_cycle = true)
    (hinc : all_increasing cs volts) (hlen : volts.length ≤ 255) :
    (∀ x ∈ run_states cs volts, x.rising_res_cycle = true) ∧
    List.Chain (fun a b => b.state < a.state) cs (run_states cs volts) :=
  run_states_of_increasing volts cs hrise hinc (by rw [hstate]; exact_mod_cast hlen)

/-- Witness for C7 (amended): one increasing tick at voltage 1 from the
initial state keeps the phase rising and steps the state down. -/
theorem increasing_power_descends_witness :
    ((run_states initial_controller [1]).getD 0 initial_controller).rising_res_cycle = true ∧
    List.Chain (fun a b => b.state < a.state) initial_controller
      (run_states initial_controller [1]) := by
  have h := increasing_power_descends [1] initial_controller rfl rfl
    (by rw [all_increasing]
        exact ⟨calculate_power_pos 1 255 (by norm_num), by rw [all_increasing]; trivial⟩)
    (by decide)
  exact ⟨h.1 _ (by simp [run_states]), h.2⟩

/-- Counterexample for C7 at N = 256: a 256-tick voltage sequence making
the computed power strictly increase on every tick from the initial state
255 in the rising phase, while the states do not strictly decrease on every
tick: the run reaches the saturating boundary 0 and repeats it. -/
theorem increasing_power_descends_ce :
    initial_controller.state = 255 ∧
    initial_controller.rising_res_cycle = true ∧
    ce_volts.length = 256 ∧
    all_increasing initial_controller ce_volts ∧
    ¬ List.Chain (fun a b => b.state < a.state) initial_controller
        (run_states initial_controller ce_volts) := by
  refine ⟨rfl, rfl, greedy_volts_length 256 initial_controller,
    greedy_volts_increasing 256 initial_controller le_rfl, fun hchain => ?_⟩
  have hlen : (run_states initial_controller ce_volts).length = 256 := by
    rw [run_states_length, ce_volts, greedy_volts_length]
  have hx : 255 < (run_states initial_controller ce_volts).length := by
    rw [hlen]
    norm_num
  have hb := chain_state_bound (run_states initial_controller ce_volts)
    initial_controller hchain 255 hx
  have hnn := run_states_nonneg ce_volts initial_controller (by decide)
    ((run_states initial_controller ce_volts).get ⟨255, hx⟩)
    (List.get_mem (run_states initial_controller ce_volts) 255 hx)
  have hst : initial_controller.state = 255 := rfl
  rw [hst] at hb
  push_cast at hb
  omega
